import Mathlib

set_option maxRecDepth 10000

/-!
Verification of the CLI execution pipeline of the cycloid-mcp-server
repository: a shallow embedding of the command builder, credential
extractor, environment builder, subprocess result mapper, output parser,
catalog list tool and the interactive stack-creation flow, together with
theorems settling the specification claims about them.

External collaborators (the JSON decoder `json.loads`, the literal
evaluator `ast.literal_eval`, the HTTP transport and the wrapped CLI
binary) are modelled as parameters: a JSON parse attempt is a function
`String → Except String Json` (the error carries the decoder message),
a literal parse attempt is `String → Option Json`, and each subprocess
invocation outcome is an `ExecEvent` drawn from an input supply.
-/

namespace CycloidMCP

/-- Python/JSON values as produced by `json.loads` / `ast.literal_eval`
and passed around the handlers. -/
inductive Json where
  | null : Json
  | bool (b : Bool) : Json
  | num (n : Int) : Json
  | str (s : String) : Json
  | arr (items : List Json) : Json
  | obj (fields : List (String × Json)) : Json
  deriving Repr

/-- Python truthiness of a value (`if canonical:` style checks). -/
def pyTruthy : Json → Bool
  | .null => false
  | .bool b => b
  | .num n => n != 0
  | .str s => s != ""
  | .arr items => !items.isEmpty
  | .obj fields => !fields.isEmpty

/-- Python `str()` of a value.  The handlers only ever apply it to
scalar canonicals coming from the CLI JSON; the composite renderings
are schematic. -/
def pyStr : Json → String
  | .null => "None"
  | .bool true => "True"
  | .bool false => "False"
  | .num n => toString n
  | .str s => s
  | .arr _ => "[...]"
  | .obj _ => "\x7b...\x7d"

/-- Python `isinstance(item, dict)`. -/
def is_dict : Json → Bool
  | .obj _ => true
  | _ => false

/-- `d.get(k)` on a Python dict that was built by inserting the pairs of
an association list in order: the last insertion for a key wins. -/
def pyDictGet (m : List (String × Json)) (k : String) : Option Json :=
  (m.reverse.find? (fun p => p.1 = k)).map (fun p => p.2)

/-- `repo.get(k)` used by the handlers; a non-dict receiver is not
exercised by any claim (in Python it would raise `AttributeError`). -/
def jsonGet (j : Json) (k : String) : Option Json :=
  match j with
  | .obj fields => pyDictGet fields k
  | _ => none

/-- `d.get(k)` on a string-valued dict (request headers). -/
def pyStrDictGet (m : List (String × String)) (k : String) : Option String :=
  (m.reverse.find? (fun p => p.1 = k)).map (fun p => p.2)

/-- `str.lower()` restricted to ASCII, which is what `Char.toLower`
implements; header names and stack names are treated per character. -/
def pyLowerStr (s : String) : String :=
  String.mk (s.data.map Char.toLower)

/-- `str.strip()`: drop leading and trailing whitespace. -/
def pyTrim (s : String) : String :=
  String.mk
    (((s.data.dropWhile Char.isWhitespace).reverse.dropWhile
      Char.isWhitespace).reverse)

/-- Server configuration fields used by the CLI mixins
(`HTTPCycloidConfig.cli_path` / `.api_url`). -/
structure Config where
  cli_path : String
  api_url : String
  deriving Repr, DecidableEq

/-- A flag value in the flags mapping: Python `Union[str, bool]`. -/
inductive FlagVal where
  | bool (b : Bool) : FlagVal
  | str (v : String) : FlagVal
  deriving Repr, DecidableEq

/-- Rendering of a single flag, as performed by the loop body of
`_build_command`: a true boolean is a bare switch, a false boolean is
omitted, a non-boolean emits the switch then its stringified value. -/
def renderFlag (p : String × FlagVal) : List String :=
  match p.2 with
  | .bool true => ["--" ++ p.1]
  | .bool false => []
  | .str v => ["--" ++ p.1, v]

namespace CliMixin

/-- `CLIMixin._build_command` from `src/cli_mixin.py` (also
`HTTPCLIMixin._build_command` in `src/http_cli_mixin.py`): start from
`[cli_path, subcommand] + args`, append each flag in insertion order of
the flags mapping, then append `--output <output_format>`. -/
def build_command (cfg : Config) (subcommand : String) (args : List String)
    (flags : List (String × FlagVal)) (output_format : String := "json") :
    List String :=
  let cmd_parts := [cfg.cli_path, subcommand] ++ args
  let cmd_parts := flags.foldl
    (fun acc p =>
      match p.2 with
      | .bool true => acc ++ ["--" ++ p.1]
      | .bool false => acc
      | .str v => acc ++ ["--" ++ p.1, v])
    cmd_parts
  cmd_parts ++ ["--output", output_format]

end CliMixin

namespace Cli

/-- `CLIMixin._build_command` from `src/cli.py`: identical to the
`cli_mixin.py` builder except that the output format is fixed to
`json`. -/
def build_command (cfg : Config) (subcommand : String) (args : List String)
    (flags : List (String × FlagVal)) : List String :=
  let cmd_parts := [cfg.cli_path, subcommand] ++ args
  let cmd_parts := flags.foldl
    (fun acc p =>
      match p.2 with
      | .bool true => acc ++ ["--" ++ p.1]
      | .bool false => acc
      | .str v => acc ++ ["--" ++ p.1, v])
    cmd_parts
  cmd_parts ++ ["--output", "json"]

/-- The fields of `CycloidCLIError` from `src/exceptions.py`. -/
structure CliError where
  message : String
  command : String
  exit_code : Int
  stderr : String
  deriving Repr, DecidableEq

/-- Outcome of one subprocess invocation, as observed by
`execute_cli_command`: the process completed with captured streams and
exit code, `asyncio.wait_for` raised `TimeoutError`, or some other
exception escaped `_execute_command`. -/
inductive ExecEvent where
  | completed (stdout stderr : String) (exit_code : Int) : ExecEvent
  | timedOut : ExecEvent
  | failed (msg : String) : ExecEvent
  deriving Repr

/-- The fields of `CLIResult` from `src/cli.py`. -/
structure CLIResult where
  success : Bool
  stdout : String
  stderr : String
  exit_code : Int
  command : String
  deriving Repr, DecidableEq

/-- `CLIMixin._extract_auth_headers` from `src/cli.py` (identically in
`src/cli_mixin.py`): lower-case every header name (later duplicates
overwriting earlier ones, as in the Python dict comprehension), look up
`x-cy-org` and `x-cy-api-key`, and fail naming the missing header when
a value is absent or empty. -/
def extract_auth_headers (headers : List (String × String)) :
    Except String (String × String) :=
  let headers_lower := headers.map (fun p => (pyLowerStr p.1, p.2))
  let organization := pyStrDictGet headers_lower "x-cy-org"
  let api_key := pyStrDictGet headers_lower "x-cy-api-key"
  if organization = none ∨ organization = some "" then
    .error "Missing required header: X-CY-ORG"
  else if api_key = none ∨ api_key = some "" then
    .error "Missing required header: X-CY-API-KEY"
  else
    .ok (organization.getD "", api_key.getD "")

/-- `CLIMixin._build_environment` from `src/cli.py` (identically in
`src/cli_mixin.py`): copy the inherited process environment and
override/add `CY_ORG`, `CY_API_KEY` and `CY_API_URL`.  Environments are
modelled as partial maps from variable names to values. -/
def build_environment (inherited : String → Option String)
    (cfg : Config) (organization api_key : String) :
    String → Option String :=
  fun k =>
    if k = "CY_ORG" then some organization
    else if k = "CY_API_KEY" then some api_key
    else if k = "CY_API_URL" then some cfg.api_url
    else inherited k

/-- `CLIMixin.execute_cli_command` from `src/cli.py`.  The JSON decoder
is the parameter `jp` (its error carries `str(e)` of the
`JSONDecodeError`); the subprocess outcome is drawn from the event
supply `events`, and the second component of the result counts how many
subprocess invocations were performed — the source spawns the process at
exactly one call site and never loops, so a completed or failed run is
never retried. -/
def execute_cli_command (cfg : Config) (subcommand : String)
    (args : List String) (flags : List (String × FlagVal))
    (timeout : Nat) (auto_parse : Bool)
    (organization api_key : Option String)
    (jp : String → Except String Json)
    (headers : List (String × String))
    (events : Nat → ExecEvent) :
    Except CliError (CLIResult ⊕ Json) × Nat :=
  let cmd_parts := build_command cfg subcommand args flags
  let command := String.intercalate " " cmd_parts
  -- `_execute_command` re-extracts credentials when either provided one
  -- is falsy; a `ValueError` raised there is caught by the generic
  -- `except Exception` clause and wrapped as an execution error.
  let provided : Option (String × String) :=
    match organization, api_key with
    | some o, some k => if o ≠ "" ∧ k ≠ "" then some (o, k) else none
    | _, _ => none
  let creds : Except String (String × String) :=
    match provided with
    | some p => .ok p
    | none => extract_auth_headers headers
  match creds with
  | .error m =>
      (.error ⟨"CLI command execution error: " ++ m, command, -1, m⟩, 0)
  | .ok _ =>
    match events 0 with
    | .timedOut =>
        (.error ⟨"CLI command timed out after " ++ toString timeout
            ++ " seconds", command, -1, "Command timed out"⟩, 1)
    | .failed m =>
        (.error ⟨"CLI command execution error: " ++ m, command, -1, m⟩, 1)
    | .completed stdout stderr exit_code =>
      let result : CLIResult :=
        ⟨exit_code == 0, stdout, stderr, exit_code, command⟩
      if exit_code ≠ 0 then
        (.error ⟨"CLI command failed: " ++ result.stderr, command,
            exit_code, result.stderr⟩, 1)
      else if auto_parse then
        match jp result.stdout with
        | .ok v => (.ok (.inr v), 1)
        | .error m =>
            (.error ⟨"Failed to parse JSON output: " ++ m, command,
                exit_code, "JSON parse error: " ++ m⟩, 1)
      else
        (.ok (.inl result), 1)

/-- Failure of `parse_cli_output`: the final `ValueError` with its
message, or the `TypeError` that `json.loads` raises on a non-string
argument (uncaught by the `except` clauses). -/
inductive ParseFail where
  | valueError (msg : String) : ParseFail
  | typeError : ParseFail
  deriving Repr

/-- `CLIMixin.parse_cli_output` from `src/cli.py` (identically in
`src/cli_mixin.py`): a dict or list is returned as-is; a string is
given to `json.loads`, then on decode failure to `ast.literal_eval`
(parameter `lp`), and if both fail a `ValueError` carrying the first
100 characters of the output is raised; any other value reaches
`json.loads`, which raises `TypeError`. -/
def parse_cli_output (jp : String → Except String Json)
    (lp : String → Option Json) (output : Json) : Except ParseFail Json :=
  match output with
  | .obj fields => .ok (.obj fields)
  | .arr items => .ok (.arr items)
  | .str s =>
    (match jp s with
     | .ok v => .ok v
     | .error _ =>
       match lp s with
       | some v => .ok v
       | none =>
           .error (.valueError
             ("Failed to parse CLI output as JSON or Python literal: "
               ++ s.take 100 ++ "...")))
  | _ => .error .typeError

/-- An error escaping `execute_cli`: the `ValueError` from header
extraction, a `CycloidCLIError`, or an uncaught `TypeError` from
`parse_cli_output`. -/
inductive PipeError where
  | valueError (msg : String) : PipeError
  | cliError (e : CliError) : PipeError
  | typeError : PipeError
  deriving Repr

/-- `CLIMixin.execute_cli` from `src/cli.py`: extract credentials, run
`execute_cli_command` with `auto_parse=False`, and parse the resulting
stdout with `parse_cli_output`, wrapping its `ValueError` in a
`CycloidCLIError`.  The invocation count is threaded through. -/
def execute_cli (cfg : Config) (subcommand : String)
    (args : List String) (flags : List (String × FlagVal))
    (timeout : Nat)
    (jp : String → Except String Json) (lp : String → Option Json)
    (headers : List (String × String))
    (events : Nat → ExecEvent) : Except PipeError Json × Nat :=
  match extract_auth_headers headers with
  | .error m => (.error (.valueError m), 0)
  | .ok (organization, api_key) =>
    match execute_cli_command cfg subcommand args flags timeout false
        (some organization) (some api_key) jp headers events with
    | (.error e, n) => (.error (.cliError e), n)
    | (.ok (.inr v), n) => (.ok v, n)
    | (.ok (.inl result), n) =>
      match parse_cli_output jp lp (.str result.stdout) with
      | .ok v => (.ok v, n)
      | .error (.valueError m) =>
          (.error (.cliError ⟨"Failed to parse CLI JSON output: " ++ m,
              result.command, result.exit_code, result.stderr⟩), n)
      | .error .typeError => (.error .typeError, n)

/-- `CLIMixin.process_cli_response` from `src/cli.py`: a list is
filtered down to its dict items; a dict is only consulted when a
truthy `list_key` is supplied, extracting that key and filtering when
it holds a list; everything else yields the default empty list. -/
def process_cli_response (data : Json) (list_key : Option String) :
    List Json :=
  match data with
  | .arr items => items.filter is_dict
  | .obj fields =>
    (match list_key with
     | some k =>
       if k = "" then []
       else
         match pyDictGet fields k with
         | some (.arr items) => items.filter is_dict
         | some _ => []
         | none => []
     | none => [])
  | _ => []

end Cli

namespace HttpCliMixin

/-- `HTTPCLIMixin._build_environment` from `src/http_cli_mixin.py`:
returns a dict holding exactly the three Cycloid variables, without
copying the inherited process environment. -/
def build_environment (cfg : Config) (organization api_key : String) :
    String → Option String :=
  fun k =>
    if k = "CY_ORG" then some organization
    else if k = "CY_API_KEY" then some api_key
    else if k = "CY_API_URL" then some cfg.api_url
    else none

/-- `extract_headers` from `src/http_cli_mixin.py` (the same function
appears in `server.py`): exact-case lookups of `X-CY-ORG` and
`X-CY-API-KEY`, raising an `HTTPException` naming the missing header
when a value is absent or empty. -/
def extract_headers (request_headers : List (String × String)) :
    Except String (String × String) :=
  let organization := pyStrDictGet request_headers "X-CY-ORG"
  let api_key := pyStrDictGet request_headers "X-CY-API-KEY"
  if organization = none ∨ organization = some "" then
    .error "Missing required header: X-CY-ORG"
  else if api_key = none ∨ api_key = some "" then
    .error "Missing required header: X-CY-API-KEY"
  else
    .ok (organization.getD "", api_key.getD "")

end HttpCliMixin

namespace Catalogs

/-- `build_display_hints` from `src/display_hints.py`, with the
`sort_by` key present only when the argument is truthy. -/
structure DisplayHints where
  key_fields : List String
  display_format : String
  columns : List (String × String)
  sort_by : Option String
  deriving Repr, DecidableEq

/-- `build_display_hints` from `src/display_hints.py`. -/
def build_display_hints (key_fields : List String)
    (display_format : String) (columns : List (String × String))
    (sort_by : Option String) : DisplayHints :=
  ⟨key_fields, display_format, columns,
    match sort_by with
    | some s => if s = "" then none else some s
    | none => none⟩

/-- The structured envelope returned by the catalog list tool in
`src/components/catalogs.py` for `format=json`-free calls:
`left(repositories=..., count=..., _display_hints=...)`. -/
structure CatalogEnvelope where
  repositories : List Json
  count : Nat
  display_hints : DisplayHints
  deriving Repr

/-- `list_catalog_repositories` from `src/components/catalogs.py`:
fetch via `execute_cli("catalog-repository", ["list"])`, normalise with
`process_cli_response`, and wrap in the envelope whose `count` is the
length of the repositories list; pipeline failures become `ToolError`
messages. -/
def list_catalog_repositories (cfg : Config)
    (jp : String → Except String Json) (lp : String → Option Json)
    (headers : List (String × String))
    (events : Nat → Cli.ExecEvent) : Except String CatalogEnvelope :=
  match (Cli.execute_cli cfg "catalog-repository" ["list"] [] 30
      jp lp headers events).1 with
  | .ok data =>
    let repositories := Cli.process_cli_response data none
    .ok ⟨repositories, repositories.length,
      build_display_hints ["canonical", "url", "branch", "stack_count"]
        "table"
        [("canonical", "Name"), ("url", "URL"), ("branch", "Branch"),
          ("stack_count", "Stacks")]
        (some "canonical")⟩
  | .error (.cliError e) =>
      .error ("Failed to list catalog repositories: " ++ e.message)
  | .error (.valueError m) =>
      .error ("Error listing catalog repositories: " ++ m)
  | .error .typeError =>
      .error "Error listing catalog repositories: TypeError"

end Catalogs

namespace Stacks

/-- Characters kept by the regex class `[a-zA-Z0-9-]` of
`generate_canonical_from_name` (codes 97–122 are `a`–`z`, 65–90 are
`A`–`Z`, 48–57 are `0`–`9`, 45 is `-`). -/
def regexKeep (c : Char) : Bool :=
  (97 ≤ c.toNat && c.toNat ≤ 122) || (65 ≤ c.toNat && c.toNat ≤ 90)
    || (48 ≤ c.toNat && c.toNat ≤ 57) || (c.toNat == 45)

/-- One character of `re.sub(r"[^a-zA-Z0-9-]", "-", ·)`. -/
def substChar (c : Char) : Char :=
  if regexKeep c then c else '-'

/-- `str.strip("-")` on the right: drop every trailing dash. -/
def dropTrailingDashes : List Char → List Char
  | [] => []
  | c :: rest =>
    match dropTrailingDashes rest with
    | [] => if c = '-' then [] else [c]
    | r => c :: r

/-- `re.sub(r"-+", "-", ·)`: the flag records whether the previously
emitted character was a dash, so that a run of dashes is emitted once. -/
def collapseAux : Bool → List Char → List Char
  | _, [] => []
  | prevDash, c :: rest =>
    if c = '-' then
      if prevDash then collapseAux true rest
      else '-' :: collapseAux true rest
    else c :: collapseAux false rest

/-- `re.sub(r"-+", "-", ·)` over a character list. -/
def collapseDashes (l : List Char) : List Char :=
  collapseAux false l

/-- `StackHandler.generate_canonical_from_name` from
`src/components/stacks/stacks_handler.py`:
`re.sub(r"-+", "-", re.sub(r"[^a-zA-Z0-9-]", "-", name.lower()).strip("-"))`. -/
def generate_canonical_from_name (name : String) : String :=
  let lowered := (pyLowerStr name).data
  let substituted := lowered.map substChar
  let stripped := dropTrailingDashes (substituted.dropWhile (fun c => c = '-'))
  String.mk (collapseDashes stripped)

/-- `StackHandler.get_available_canonicals` from
`src/components/stacks/stacks_handler.py`: collect `str(canonical)` for
every repository whose `canonical` entry is truthy. -/
def get_available_canonicals (catalog_repositories : List Json) :
    List String :=
  catalog_repositories.filterMap (fun repo =>
    match jsonGet repo "canonical" with
    | some c => if pyTruthy c then some (pyStr c) else none
    | none => none)

/-- The `action`/`data` pair of one `ctx.elicit` response. -/
structure ElicitResult where
  action : String
  data : String
  deriving Repr, DecidableEq

/-- Outcome of one `ctx.elicit` round-trip: the call raised
`AttributeError`, raised some other exception, or returned a result. -/
inductive ElicitOutcome where
  | raisesAttr : ElicitOutcome
  | raises : ElicitOutcome
  | returns (r : ElicitResult) : ElicitOutcome
  deriving Repr

/-- The external inputs consumed by one run of the stack-creation
elicitation flow, in the order the source consumes them. -/
structure ElicitIn where
  nameResp : ElicitOutcome
  useCaseResp : ElicitOutcome
  catalogFetch : Except String (List Json)
  catalogResp : ElicitOutcome
  confirmResp : ElicitOutcome
  createRun : Cli.ExecEvent
  deriving Repr

/-- The parameters dict returned by a fully accepted elicitation. -/
structure StackParams where
  name : String
  use_case : String
  service_catalog_source_canonical : String
  deriving Repr, DecidableEq

/-- `StackCreationElicitor._elicit_stack_name` from
`src/components/stacks/stacks_tools.py`: its own `try`/`except` turns
an `AttributeError` into the `ELICITATION_NOT_SUPPORTED` marker and any
other exception into `ELICITATION_FAILED`; a non-accepted action or an
empty (or whitespace-only) value cancels. -/
def elicit_stack_name : ElicitOutcome → Except String String
  | .raisesAttr => .error "ELICITATION_NOT_SUPPORTED"
  | .raises => .error "ELICITATION_FAILED"
  | .returns r =>
    if r.action ≠ "accept" then
      .error "Stack creation cancelled - no stack name provided."
    else if r.data = "" then
      .error "❌ Stack name cannot be empty. Please provide a valid name."
    else
      let stack_name := pyTrim r.data
      if stack_name = "" then
        .error "❌ Stack name cannot be empty. Please provide a valid name."
      else
        .ok stack_name

/-- The message built by `_elicit_use_case` for a value outside the
offered list. -/
def invalid_use_case_msg (use_case : String) (options : List String) :
    String :=
  "❌ Invalid use case \x27" ++ use_case
    ++ "\x27. Available options are: " ++ String.intercalate ", " options

/-- The message built by `_elicit_service_catalog_source` for a value
outside the offered list. -/
def invalid_catalog_msg (canonical : String) (options : List String) :
    String :=
  "❌ Invalid service catalog source \x27" ++ canonical
    ++ "\x27. Available options are: " ++ String.intercalate ", " options

/-- `StackCreationElicitor.elicit_stack_parameters` from
`src/components/stacks/stacks_tools.py`: the four elicitation steps in
order, each aborting the flow on its cancellation message; exceptions
raised by the use-case, catalog-source or confirmation steps reach the
outer `except` and become the `ELICITATION_FAILED` marker; a failure of
the catalog fetch is converted by `_elicit_service_catalog_source` into
a cancellation message. -/
def elicit_stack_parameters (inp : ElicitIn)
    (available_use_cases : List String) : Except String StackParams :=
  match elicit_stack_name inp.nameResp with
  | .error m => .error m
  | .ok name_result =>
    match inp.useCaseResp with
    | .raisesAttr => .error "ELICITATION_FAILED"
    | .raises => .error "ELICITATION_FAILED"
    | .returns r =>
      if r.action ≠ "accept" then
        .error "Stack creation cancelled - no use case provided."
      else if r.data ∉ available_use_cases then
        .error (invalid_use_case_msg r.data available_use_cases)
      else
        match inp.catalogFetch with
        | .error e =>
            .error ("❌ Failed to fetch catalog repositories: " ++ e)
        | .ok catalog_repositories =>
          let available_canonicals :=
            get_available_canonicals catalog_repositories
          if available_canonicals = [] then
            .error "❌ No catalog repositories found. Please check your configuration."
          else
            match inp.catalogResp with
            | .raisesAttr => .error "ELICITATION_FAILED"
            | .raises => .error "ELICITATION_FAILED"
            | .returns rc =>
              if rc.action ≠ "accept" then
                .error "Stack creation cancelled - no service catalog source provided."
              else if rc.data ∉ available_canonicals then
                .error (invalid_catalog_msg rc.data available_canonicals)
              else
                match inp.confirmResp with
                | .raisesAttr => .error "ELICITATION_FAILED"
                | .raises => .error "ELICITATION_FAILED"
                | .returns rf =>
                  if rf.action ≠ "accept" then
                    .error "Stack creation cancelled by user."
                  else if pyLowerStr rf.data ≠ "confirm" then
                    .error "Stack creation cancelled - user did not type \x27confirm\x27."
                  else
                    .ok ⟨name_result, r.data, rc.data⟩

/-- The argv construction of `StackTools._execute_stack_creation` from
`src/components/stacks/stacks_tools.py`: the creation arguments with
the slug generated from the name, then `[arg for arg in args if arg]`,
which drops every falsy (empty) entry. -/
def creation_args (ref name use_case
    service_catalog_source_canonical : String) : List String :=
  (["create",
    "--blueprint-ref", ref,
    "--name", name,
    "--stack", generate_canonical_from_name name,
    "--use-case", use_case,
    "--catalog-repository", service_catalog_source_canonical]).filter
    (fun arg => arg ≠ "")

/-- `StackTools._execute_stack_creation` from
`src/components/stacks/stacks_tools.py`: build the creation argv (see
`creation_args`), invoke `execute_cli_command("stack", args)` and
report success; a non-zero exit makes `execute_cli_command` raise
`CycloidCLIError` (modelled as `.error ()`), so the source's own
failure-message branch is unreachable.  The second component records
the `stack` subcommand invocations performed. -/
def execute_stack_creation (ref name use_case
    service_catalog_source_canonical : String) (run : Cli.ExecEvent) :
    Except Unit String × List (List String) :=
  let args :=
    creation_args ref name use_case service_catalog_source_canonical
  match run with
  | .completed stdout _ exit_code =>
    if exit_code = 0 then
      (.ok ("✅ Stack \x27" ++ name ++ "\x27 created successfully!\n"
        ++ stdout), [args])
    else
      (.error (), [args])
  | .timedOut => (.error (), [args])
  | .failed _ => (.error (), [args])

/-- `StackTools._handle_elicitation_flow` from
`src/components/stacks/stacks_tools.py`: run the elicitation; the two
failure markers collapse to `ELICITATION_FAILED`, any other
cancellation message is returned as-is, and on success the creation is
executed, with an exception from it caught by the outer `except` and
turned into `ELICITATION_FAILED`. -/
def handle_elicitation_flow (inp : ElicitIn) (ref : String)
    (available_use_cases : List String) : String × List (List String) :=
  match elicit_stack_parameters inp available_use_cases with
  | .error m =>
    if m = "ELICITATION_FAILED" ∨ m = "ELICITATION_NOT_SUPPORTED" then
      ("ELICITATION_FAILED", [])
    else
      (m, [])
  | .ok p =>
    match execute_stack_creation ref p.name p.use_case
        p.service_catalog_source_canonical inp.createRun with
    | (.ok msg, calls) => (msg, calls)
    | (.error _, calls) => ("ELICITATION_FAILED", calls)

end Stacks

/-! Derived definitions used by the statements below. -/

namespace Cli

/-- The `CycloidCLIError` raised by `execute_cli_command` when
`asyncio.wait_for` times out. -/
def timeout_error (command : String) (timeout : Nat) : CliError :=
  ⟨"CLI command timed out after " ++ toString timeout ++ " seconds",
    command, -1, "Command timed out"⟩

end Cli

/-- Whether a value is a Python dict or list (the `isinstance(output,
(dict, list))` test of `parse_cli_output`). -/
def is_dict_or_list : Json → Bool
  | .obj _ => true
  | .arr _ => true
  | _ => false

namespace Stacks

/-- A character allowed in a slug: a lowercase ASCII letter (97–122), a
digit (48–57) or a dash (45). -/
def slug_char (c : Char) : Bool :=
  (97 ≤ c.toNat && c.toNat ≤ 122) || (48 ≤ c.toNat && c.toNat ≤ 57)
    || (c.toNat == 45)

/-- No two consecutive dashes occur in the character list. -/
def no_double_dash : List Char → Bool
  | c :: d :: rest => !(c = '-' && d = '-') && no_double_dash (d :: rest)
  | _ => true

/-- All four elicitation steps of the stack-creation flow were accepted
with valid values: a non-empty name, a use case from the offered list,
a catalog-source canonical from the fetched list, and the literal
confirmation word. -/
def all_steps_accepted (inp : ElicitIn) (ucs : List String) : Prop :=
  (∃ r, inp.nameResp = .returns r ∧ r.action = "accept"
    ∧ r.data ≠ "" ∧ pyTrim r.data ≠ "")
  ∧ (∃ r, inp.useCaseResp = .returns r ∧ r.action = "accept"
    ∧ r.data ∈ ucs)
  ∧ (∃ repos r, inp.catalogFetch = .ok repos
    ∧ inp.catalogResp = .returns r ∧ r.action = "accept"
    ∧ r.data ∈ get_available_canonicals repos)
  ∧ (∃ r, inp.confirmResp = .returns r ∧ r.action = "accept"
    ∧ pyLowerStr r.data = "confirm")

end Stacks

/-! Concrete fixtures used by witnesses and counterexamples. -/

/-- A concrete configuration. -/
def wConfig : Config :=
  ⟨"cy", "https://http-api.cycloid.io"⟩

/-- A concrete inherited process environment holding `PATH`. -/
def wEnv : String → Option String :=
  fun k => if k = "PATH" then some "/usr/bin" else none

/-- Concrete request headers in canonical casing. -/
def wHeaders : List (String × String) :=
  [("X-CY-ORG", "my-org"), ("X-CY-API-KEY", "my-key")]

/-- The same request headers in lower casing. -/
def wHeadersLower : List (String × String) :=
  [("x-cy-org", "my-org"), ("x-cy-api-key", "my-key")]

/-- The same request headers in mixed casing. -/
def wHeadersMixed : List (String × String) :=
  [("X-Cy-Org", "my-org"), ("x-cy-api-key", "my-key")]

/-- Request headers carrying neither credential header. -/
def wHeadersOther : List (String × String) :=
  [("content-type", "application/json")]

/-- A JSON decoder that fails on every input (the behaviour of
`json.loads` on non-JSON text such as plain words). -/
def wJpFail : String → Except String Json :=
  fun _ => .error "Expecting value: line 1 column 1 (char 0)"

/-- A literal evaluator that fails on every input (the behaviour of
`ast.literal_eval` on non-literal text such as bare words). -/
def wLpFail : String → Option Json :=
  fun _ => none

/-- The JSON decoder observed on the two inputs of the idempotence
counterexample: `json.loads` parses the quoted text `"hi"` to the bare
string `hi`, and fails on the bare word `hi`. -/
def wJpQuoted : String → Except String Json :=
  fun s =>
    if s = "\x22hi\x22" then .ok (.str "hi")
    else .error "Expecting value: line 1 column 1 (char 0)"

/-- The spec's end-to-end catalog scenario: the mock subprocess stdout
and the value `json.loads` yields for it. -/
def wCatalogStdout : String :=
  "[\x7b\x22canonical\x22:\x22test-repo\x22,\x22branch\x22:\x22main\x22,\x22url\x22:\x22https://x\x22,\x22stack_count\x22:5\x7d]"

/-- The parsed repository object of the catalog scenario. -/
def wCatalogRepo : List (String × Json) :=
  [("canonical", .str "test-repo"), ("branch", .str "main"),
    ("url", .str "https://x"), ("stack_count", .num 5)]

/-- The JSON decoder observed on the catalog scenario stdout. -/
def wJpCatalog : String → Except String Json :=
  fun s =>
    if s = wCatalogStdout then .ok (.arr [.obj wCatalogRepo])
    else .error "Expecting value: line 1 column 1 (char 0)"

/-- An event supply whose first invocation exits 0 with the catalog
scenario stdout. -/
def wEventsCatalog : Nat → Cli.ExecEvent :=
  fun _ => .completed wCatalogStdout "" 0

/-- An event supply whose first invocation fails with exit 1. -/
def wEventsFail : Nat → Cli.ExecEvent :=
  fun _ => .completed "" "auth failed" 1

/-- An event supply whose first invocation times out. -/
def wEventsTimeout : Nat → Cli.ExecEvent :=
  fun _ => .timedOut

/-- An event supply whose first invocation exits 0 with non-JSON
stdout. -/
def wEventsPlain : Nat → Cli.ExecEvent :=
  fun _ => .completed "plain words" "" 0

/-- A 150-character unparseable stdout, longer than the 100-character
error preview. -/
def wLongStdout : String :=
  String.mk (List.replicate 150 'x')

/-- An event supply whose first invocation exits 0 with the long
unparseable stdout. -/
def wEventsLong : Nat → Cli.ExecEvent :=
  fun _ => .completed wLongStdout "" 0

/-- Elicitation inputs in which the name is accepted and the use case
is accepted with a value outside the offered list. -/
def wElicitBadUseCase : Stacks.ElicitIn :=
  ⟨.returns ⟨"accept", "my stack"⟩,
    .returns ⟨"accept", "bogus"⟩,
    .ok [],
    .returns ⟨"accept", "irrelevant"⟩,
    .returns ⟨"accept", "confirm"⟩,
    .completed "" "" 0⟩

/-! Theorems. -/

/-- Folding the flag-appending loop of `_build_command` over any
accumulator appends the per-flag renderings in insertion order. -/
theorem foldl_flags_eq_flatMap (flags : List (String × FlagVal))
    (acc : List String) :
    flags.foldl
      (fun acc p =>
        match p.2 with
        | .bool true => acc ++ ["--" ++ p.1]
        | .bool false => acc
        | .str v => acc ++ ["--" ++ p.1, v])
      acc
    = acc ++ flags.flatMap renderFlag := by
  induction flags generalizing acc with
  | nil => simp
  | cons p rest ih =>
    obtain ⟨n, fv⟩ := p
    cases fv with
    | bool b =>
      cases b with
      | false => simpa [renderFlag] using ih acc
      | true => simp [renderFlag, ih, List.append_assoc]
    | str v => simp [renderFlag, ih, List.append_assoc]

/-- C2: `_build_command` returns exactly
`[binary_path, subcommand, *args, *flags_rendered, "--output",
output_format]`, where the flags are rendered in insertion order, a
false boolean flag contributes nothing, a true boolean flag contributes
exactly the bare switch, a non-boolean flag contributes the switch
followed by its value, and the argv ends with `--output` followed by
the format. -/
theorem build_command_is_rendered_argv (cfg : Config)
    (subcommand : String) (args : List String)
    (flags : List (String × FlagVal)) (output_format : String) :
    CliMixin.build_command cfg subcommand args flags output_format
      = [cfg.cli_path, subcommand] ++ args ++ flags.flatMap renderFlag
        ++ ["--output", output_format]
    ∧ (∀ n, renderFlag (n, .bool false) = [])
    ∧ (∀ n, renderFlag (n, .bool true) = ["--" ++ n])
    ∧ (∀ n v, renderFlag (n, .str v) = ["--" ++ n, v])
    ∧ (∃ front,
        CliMixin.build_command cfg subcommand args flags output_format
          = front ++ ["--output", output_format]) := by
  have hmain :
      CliMixin.build_command cfg subcommand args flags output_format
        = [cfg.cli_path, subcommand] ++ args ++ flags.flatMap renderFlag
          ++ ["--output", output_format] := by
    simp only [CliMixin.build_command]
    rw [foldl_flags_eq_flatMap]
  exact ⟨hmain, fun n => rfl, fun n => rfl, fun n v => rfl,
    ⟨[cfg.cli_path, subcommand] ++ args ++ flags.flatMap renderFlag,
      by simpa [List.append_assoc] using hmain⟩⟩

/-- C1: when the subprocess completes with a non-zero exit code,
`execute_cli_command` raises a `CycloidCLIError` carrying the rendered
command, the exit code and the stderr text verbatim, and performs
exactly one subprocess invocation (no automatic retry). -/
theorem nonzero_exit_raises_error_without_retry (cfg : Config)
    (subcommand : String) (args : List String)
    (flags : List (String × FlagVal)) (timeout : Nat) (auto_parse : Bool)
    (o k : String) (jp : String → Except String Json)
    (headers : List (String × String)) (events : Nat → Cli.ExecEvent)
    (stdout stderr : String) (exit_code : Int)
    (ho : o ≠ "") (hk : k ≠ "")
    (hev : events 0 = .completed stdout stderr exit_code)
    (hexit : exit_code ≠ 0) :
    Cli.execute_cli_command cfg subcommand args flags timeout auto_parse
        (some o) (some k) jp headers events
      = (.error ⟨"CLI command failed: " ++ stderr,
          String.intercalate " "
            (Cli.build_command cfg subcommand args flags),
          exit_code, stderr⟩, 1) := by
  simp only [Cli.execute_cli_command, hev]
  rw [if_pos ⟨ho, hk⟩]
  simp [hexit]

/-- Witness for C1 at a concrete failing invocation. -/
theorem nonzero_exit_raises_error_without_retry_witness :
    Cli.execute_cli_command wConfig "stacks" ["list"] [] 30 false
        (some "my-org") (some "my-key") wJpFail wHeaders wEventsFail
      = (.error ⟨"CLI command failed: " ++ "auth failed",
          String.intercalate " "
            (Cli.build_command wConfig "stacks" ["list"] []),
          1, "auth failed"⟩, 1) :=
  nonzero_exit_raises_error_without_retry wConfig "stacks" ["list"] []
    30 false "my-org" "my-key" wJpFail wHeaders wEventsFail "" "auth failed"
    1 (by decide) (by decide) rfl (by decide)

/-- C6: when the subprocess does not complete within the timeout,
`execute_cli_command` raises the typed timeout error for the rendered
command (rather than returning a result), and a completion with exit
code 0 never yields that error. -/
theorem timeout_raises_typed_error (cfg : Config) (subcommand : String)
    (args : List String) (flags : List (String × FlagVal))
    (timeout : Nat) (auto_parse : Bool) (o k : String)
    (jp : String → Except String Json)
    (headers : List (String × String)) (events : Nat → Cli.ExecEvent)
    (ho : o ≠ "") (hk : k ≠ "") :
    (events 0 = .timedOut →
      Cli.execute_cli_command cfg subcommand args flags timeout
          auto_parse (some o) (some k) jp headers events
        = (.error (Cli.timeout_error
            (String.intercalate " "
              (Cli.build_command cfg subcommand args flags)) timeout),
            1))
    ∧ (∀ stdout stderr, events 0 = .completed stdout stderr 0 →
        (Cli.execute_cli_command cfg subcommand args flags timeout
            auto_parse (some o) (some k) jp headers events).1
          ≠ .error (Cli.timeout_error
              (String.intercalate " "
                (Cli.build_command cfg subcommand args flags)) timeout)) := by
  constructor
  · intro hev
    simp only [Cli.execute_cli_command, hev]
    rw [if_pos ⟨ho, hk⟩]
    simp [Cli.timeout_error]
  · intro stdout stderr hev
    by_cases hap : auto_parse
    · cases hjp : jp stdout with
      | ok v =>
        simp only [Cli.execute_cli_command, hev, hap]
        rw [if_pos ⟨ho, hk⟩]
        simp [hjp, Cli.timeout_error]
      | error m =>
        simp only [Cli.execute_cli_command, hev, hap]
        rw [if_pos ⟨ho, hk⟩]
        simp [hjp, Cli.timeout_error]
    · simp only [Cli.execute_cli_command, hev, hap]
      rw [if_pos ⟨ho, hk⟩]
      simp [Cli.timeout_error]

/-- Witness for C6 at a concrete timed-out invocation. -/
theorem timeout_raises_typed_error_witness :
    Cli.execute_cli_command wConfig "stacks" ["list"] [] 30 false
        (some "my-org") (some "my-key") wJpFail wHeaders wEventsTimeout
      = (.error (Cli.timeout_error
          (String.intercalate " "
            (Cli.build_command wConfig "stacks" ["list"] [])) 30), 1)
    ∧ (Cli.execute_cli_command wConfig "stacks" ["list"] [] 30 false
        (some "my-org") (some "my-key") wJpFail wHeaders
        wEventsCatalog).1
      ≠ .error (Cli.timeout_error
          (String.intercalate " "
            (Cli.build_command wConfig "stacks" ["list"] [])) 30) :=
  ⟨(timeout_raises_typed_error wConfig "stacks" ["list"] [] 30 false
      "my-org" "my-key" wJpFail wHeaders wEventsTimeout (by decide)
      (by decide)).1 rfl,
    (timeout_raises_typed_error wConfig "stacks" ["list"] [] 30 false
      "my-org" "my-key" wJpFail wHeaders wEventsCatalog (by decide)
      (by decide)).2 wCatalogStdout "" rfl⟩

/-- C5 (amended): the environment built by `CLIMixin._build_environment`
in `src/cli.py` / `src/cli_mixin.py` is the full inherited process
environment with exactly `CY_ORG`, `CY_API_KEY` and `CY_API_URL`
overridden or added; every other inherited entry is unchanged.  (The
`HTTPCLIMixin` variant in `src/http_cli_mixin.py` instead passes only
those three keys — see the counterexample.) -/
theorem build_environment_overrides_exactly_three (cfg : Config)
    (inherited : String → Option String) (organization api_key : String) :
    (∀ key, key ≠ "CY_ORG" → key ≠ "CY_API_KEY" → key ≠ "CY_API_URL" →
      Cli.build_environment inherited cfg organization api_key key
        = inherited key)
    ∧ Cli.build_environment inherited cfg organization api_key "CY_ORG"
        = some organization
    ∧ Cli.build_environment inherited cfg organization api_key
        "CY_API_KEY" = some api_key
    ∧ Cli.build_environment inherited cfg organization api_key
        "CY_API_URL" = some cfg.api_url := by
  refine ⟨fun key h1 h2 h3 => ?_, rfl, rfl, rfl⟩
  simp [Cli.build_environment, h1, h2, h3]

/-- Witness for C5 at a concrete environment. -/
theorem build_environment_overrides_exactly_three_witness :
    Cli.build_environment wEnv wConfig "my-org" "my-key" "PATH"
      = some "/usr/bin"
    ∧ Cli.build_environment wEnv wConfig "my-org" "my-key" "CY_ORG"
      = some "my-org" :=
  ⟨((build_environment_overrides_exactly_three wConfig wEnv "my-org"
      "my-key").1 "PATH" (by decide) (by decide) (by decide)).trans rfl,
    (build_environment_overrides_exactly_three wConfig wEnv "my-org"
      "my-key").2.1⟩

/-- Counterexample for C5 as stated: the `HTTPCLIMixin` variant passes
an environment holding only the three Cycloid keys, so an inherited
entry such as `PATH` is absent from the child environment. -/
theorem http_build_environment_drops_inherited :
    HttpCliMixin.build_environment wConfig "my-org" "my-key" "PATH"
        ≠ wEnv "PATH"
    ∧ wEnv "PATH" = some "/usr/bin"
    ∧ HttpCliMixin.build_environment wConfig "my-org" "my-key" "PATH"
        = none := by
  refine ⟨?_, rfl, rfl⟩
  decide

/-- A headers mapping none of whose keys lowercases to the given name
yields no entry in the lowercased lookup dict. -/
theorem lower_get_none (hs : List (String × String)) (key : String)
    (h : ∀ p ∈ hs, pyLowerStr p.1 ≠ key) :
    pyStrDictGet (hs.map (fun p => (pyLowerStr p.1, p.2))) key = none := by
  have hfind :
      (hs.map (fun p => (pyLowerStr p.1, p.2))).reverse.find?
        (fun p => p.1 = key) = none := by
    rw [List.find?_eq_none]
    intro x hx
    rw [List.mem_reverse] at hx
    obtain ⟨p, hp, rfl⟩ := List.mem_map.mp hx
    simpa using h p hp
  simp [pyStrDictGet, hfind]

/-- C4 (amended): credential extraction by
`CLIMixin._extract_auth_headers` in `src/cli.py` / `src/cli_mixin.py`
is case-insensitive — two header mappings with the same lowercased keys
extract identically, a mapping lacking `X-CY-ORG` under any casing
fails naming that header, and one holding the organization but lacking
`X-CY-API-KEY` under any casing fails naming that header.  (The
`extract_headers` helper in `src/http_cli_mixin.py` / `server.py`
instead performs exact-case lookups — see the counterexample.) -/
theorem extract_auth_headers_case_insensitive
    (h1 h2 : List (String × String))
    (hkeys : h1.map (fun p => (pyLowerStr p.1, p.2))
      = h2.map (fun p => (pyLowerStr p.1, p.2))) :
    Cli.extract_auth_headers h1 = Cli.extract_auth_headers h2
    ∧ (∀ hs : List (String × String),
        (∀ p ∈ hs, pyLowerStr p.1 ≠ "x-cy-org") →
        Cli.extract_auth_headers hs
          = .error "Missing required header: X-CY-ORG")
    ∧ (∀ hs : List (String × String),
        (∃ s, pyStrDictGet (hs.map (fun p => (pyLowerStr p.1, p.2)))
            "x-cy-org" = some s ∧ s ≠ "") →
        (∀ p ∈ hs, pyLowerStr p.1 ≠ "x-cy-api-key") →
        Cli.extract_auth_headers hs
          = .error "Missing required header: X-CY-API-KEY") := by
  refine ⟨?_, ?_, ?_⟩
  · simp only [Cli.extract_auth_headers]
    rw [hkeys]
  · intro hs h
    have horg := lower_get_none hs "x-cy-org" h
    simp [Cli.extract_auth_headers, horg]
  · intro hs horg hkey
    obtain ⟨s, hgets, hne⟩ := horg
    have hnokey := lower_get_none hs "x-cy-api-key" hkey
    simp [Cli.extract_auth_headers, hgets, hnokey, hne]

/-- Witness for C4 at concrete header mappings. -/
theorem extract_auth_headers_case_insensitive_witness :
    Cli.extract_auth_headers wHeaders
      = Cli.extract_auth_headers wHeadersMixed
    ∧ Cli.extract_auth_headers wHeadersOther
      = .error "Missing required header: X-CY-ORG" :=
  ⟨(extract_auth_headers_case_insensitive wHeaders wHeadersMixed
      (by decide)).1,
    (extract_auth_headers_case_insensitive wHeaders wHeadersMixed
      (by decide)).2.1 wHeadersOther (by decide)⟩

/-- Counterexample for C4 as stated: `extract_headers` in
`src/http_cli_mixin.py` recognises the canonical casing but rejects the
same credentials sent with lowercased header names, so credential
extraction is not case-insensitive everywhere. -/
theorem extract_headers_requires_exact_case :
    HttpCliMixin.extract_headers wHeaders = .ok ("my-org", "my-key")
    ∧ HttpCliMixin.extract_headers wHeadersLower
      = .error "Missing required header: X-CY-ORG" := by
  constructor
  · rfl
  · rfl

/-- A successful header extraction never yields an empty organization
or API key (the source rejects falsy values). -/
theorem extract_core_ok_nonempty (org key : Option String)
    (o k : String)
    (h : (if org = none ∨ org = some "" then
            (.error "Missing required header: X-CY-ORG"
              : Except String (String × String))
          else if key = none ∨ key = some "" then
            .error "Missing required header: X-CY-API-KEY"
          else .ok (org.getD "", key.getD "")) = .ok (o, k)) :
    o ≠ "" ∧ k ≠ "" := by
  cases org with
  | none => simp at h
  | some s =>
    by_cases hs0 : s = ""
    · subst hs0
      simp at h
    · cases key with
      | none => simp [hs0] at h
      | some t =>
        by_cases ht0 : t = ""
        · subst ht0
          simp [hs0] at h
        · simp [hs0, ht0] at h
          exact ⟨h.1 ▸ hs0, h.2 ▸ ht0⟩

/-- A successful header extraction never yields an empty organization
or API key (the source rejects falsy values). -/
theorem extract_auth_headers_ok_nonempty (hs : List (String × String))
    (o k : String) (h : Cli.extract_auth_headers hs = .ok (o, k)) :
    o ≠ "" ∧ k ≠ "" :=
  extract_core_ok_nonempty
    (pyStrDictGet (hs.map (fun p => (pyLowerStr p.1, p.2))) "x-cy-org")
    (pyStrDictGet (hs.map (fun p => (pyLowerStr p.1, p.2)))
      "x-cy-api-key")
    o k (by simpa [Cli.extract_auth_headers] using h)

/-- C3: on a successful invocation with JSON output, `execute_cli`
first attempts a JSON parse of stdout, on failure attempts the
permissive literal parse, and only when both fail raises a parse error
whose message carries the first 100 characters of the offending
output. -/
theorem execute_cli_json_parse_fallback (cfg : Config)
    (subcommand : String) (args : List String)
    (flags : List (String × FlagVal)) (timeout : Nat)
    (jp : String → Except String Json) (lp : String → Option Json)
    (headers : List (String × String)) (events : Nat → Cli.ExecEvent)
    (stdout stderr o k : String)
    (hcreds : Cli.extract_auth_headers headers = .ok (o, k))
    (hev : events 0 = .completed stdout stderr 0) :
    (∀ v, jp stdout = .ok v →
      (Cli.execute_cli cfg subcommand args flags timeout jp lp headers
        events).1 = .ok v)
    ∧ (∀ m v, jp stdout = .error m → lp stdout = some v →
      (Cli.execute_cli cfg subcommand args flags timeout jp lp headers
        events).1 = .ok v)
    ∧ (∀ m, jp stdout = .error m → lp stdout = none →
      (Cli.execute_cli cfg subcommand args flags timeout jp lp headers
        events).1
        = .error (.cliError ⟨"Failed to parse CLI JSON output: "
            ++ ("Failed to parse CLI output as JSON or Python literal: "
              ++ stdout.take 100 ++ "..."),
            String.intercalate " "
              (Cli.build_command cfg subcommand args flags),
            0, stderr⟩)) := by
  obtain ⟨ho, hk⟩ := extract_auth_headers_ok_nonempty headers o k hcreds
  refine ⟨?_, ?_, ?_⟩
  · intro v hjp
    simp only [Cli.execute_cli, hcreds, Cli.execute_cli_command, hev]
    rw [if_pos ⟨ho, hk⟩]
    simp [Cli.parse_cli_output, hjp]
  · intro m v hjp hlp
    simp only [Cli.execute_cli, hcreds, Cli.execute_cli_command, hev]
    rw [if_pos ⟨ho, hk⟩]
    simp [Cli.parse_cli_output, hjp, hlp]
  · intro m hjp hlp
    simp only [Cli.execute_cli, hcreds, Cli.execute_cli_command, hev]
    rw [if_pos ⟨ho, hk⟩]
    simp [Cli.parse_cli_output, hjp, hlp]

/-- Witness for C3: a 150-character output failing both parses yields
the error carrying exactly its first 100 characters. -/
theorem execute_cli_json_parse_fallback_witness :
    (Cli.execute_cli wConfig "catalog-repository" ["list"] [] 30
      wJpFail wLpFail wHeaders wEventsLong).1
      = .error (.cliError ⟨"Failed to parse CLI JSON output: "
          ++ ("Failed to parse CLI output as JSON or Python literal: "
            ++ wLongStdout.take 100 ++ "..."),
          String.intercalate " "
            (Cli.build_command wConfig "catalog-repository" ["list"] []),
          0, ""⟩) :=
  (execute_cli_json_parse_fallback wConfig "catalog-repository" ["list"]
    [] 30 wJpFail wLpFail wHeaders wEventsLong wLongStdout "" "my-org"
    "my-key" rfl rfl).2.2 "Expecting value: line 1 column 1 (char 0)"
    rfl rfl

/-- C9 (amended): `parse_cli_output` is the identity on dict and list
inputs, and re-applying it to any successful result that is itself a
dict or list returns that value unchanged.  (A successful result that
is a scalar — possible because `json.loads` can return one — is not a
fixed point; see the counterexample.) -/
theorem parse_cli_output_identity_on_parsed
    (jp : String → Except String Json) (lp : String → Option Json) :
    (∀ fields, Cli.parse_cli_output jp lp (.obj fields)
      = .ok (.obj fields))
    ∧ (∀ items, Cli.parse_cli_output jp lp (.arr items)
      = .ok (.arr items))
    ∧ (∀ x v, Cli.parse_cli_output jp lp x = .ok v →
        is_dict_or_list v = true →
        Cli.parse_cli_output jp lp v = .ok v) := by
  refine ⟨fun fields => rfl, fun items => rfl, fun x v _ hv => ?_⟩
  cases v with
  | obj fields => rfl
  | arr items => rfl
  | null => simp [is_dict_or_list] at hv
  | bool b => simp [is_dict_or_list] at hv
  | num n => simp [is_dict_or_list] at hv
  | str s => simp [is_dict_or_list] at hv

/-- Witness for C9 applying the idempotence to a concrete list
result. -/
theorem parse_cli_output_identity_on_parsed_witness :
    Cli.parse_cli_output wJpQuoted wLpFail (.arr []) = .ok (.arr []) :=
  (parse_cli_output_identity_on_parsed wJpQuoted wLpFail).2.2
    (.arr []) (.arr []) rfl rfl

/-- Counterexample for C9 as stated: `json.loads` parses the quoted
text `"hi"` to the bare string `hi`, so `parse_cli_output` succeeds
with a scalar result, and re-applying it to that result raises instead
of returning the same value. -/
theorem parse_cli_output_not_idempotent :
    Cli.parse_cli_output wJpQuoted wLpFail (.str "\x22hi\x22")
      = .ok (.str "hi")
    ∧ Cli.parse_cli_output wJpQuoted wLpFail (.str "hi")
      = .error (.valueError
          "Failed to parse CLI output as JSON or Python literal: hi...") := by
  constructor
  · rfl
  · rfl

/-- C8: when the subprocess exits 0 with stdout parsing to a JSON list
of repository objects, the catalog list tool returns the envelope whose
`repositories` field is that list unchanged and whose `count` field is
its length; and in general every successful envelope satisfies
`count = repositories.length`. -/
theorem catalog_list_returns_envelope (cfg : Config)
    (jp : String → Except String Json) (lp : String → Option Json)
    (headers : List (String × String)) (events : Nat → Cli.ExecEvent)
    (stdout stderr o k : String) (items : List Json)
    (hcreds : Cli.extract_auth_headers headers = .ok (o, k))
    (hev : events 0 = .completed stdout stderr 0)
    (hjp : jp stdout = .ok (.arr items))
    (hobj : ∀ j ∈ items, is_dict j = true) :
    Catalogs.list_catalog_repositories cfg jp lp headers events
      = .ok ⟨items, items.length,
          Catalogs.build_display_hints
            ["canonical", "url", "branch", "stack_count"] "table"
            [("canonical", "Name"), ("url", "URL"), ("branch", "Branch"),
              ("stack_count", "Stacks")]
            (some "canonical")⟩
    ∧ (∀ (cfg2 : Config) (jp2 : String → Except String Json)
        (lp2 : String → Option Json)
        (headers2 : List (String × String))
        (events2 : Nat → Cli.ExecEvent)
        (env : Catalogs.CatalogEnvelope),
        Catalogs.list_catalog_repositories cfg2 jp2 lp2 headers2 events2
          = .ok env →
        env.count = env.repositories.length) := by
  constructor
  · obtain ⟨ho, hk⟩ := extract_auth_headers_ok_nonempty headers o k hcreds
    have hdata :
        (Cli.execute_cli cfg "catalog-repository" ["list"] [] 30 jp lp
          headers events).1 = .ok (.arr items) := by
      simp only [Cli.execute_cli, hcreds, Cli.execute_cli_command, hev]
      rw [if_pos ⟨ho, hk⟩]
      simp [Cli.parse_cli_output, hjp]
    simp only [Catalogs.list_catalog_repositories, hdata]
    rw [show Cli.process_cli_response (.arr items) none
        = items.filter is_dict from rfl]
    rw [List.filter_eq_self.mpr hobj]
  · intro cfg2 jp2 lp2 headers2 events2 env h
    unfold Catalogs.list_catalog_repositories at h
    cases hres : (Cli.execute_cli cfg2 "catalog-repository" ["list"] []
        30 jp2 lp2 headers2 events2).1 with
    | ok data =>
      rw [hres] at h
      simp only [Except.ok.injEq] at h
      rw [← h]
    | error e =>
      rw [hres] at h
      cases e <;> simp at h

/-- Witness for C8: the spec's end-to-end catalog scenario returns the
one-element envelope with count 1. -/
theorem catalog_list_returns_envelope_witness :
    Catalogs.list_catalog_repositories wConfig wJpCatalog wLpFail
        wHeaders wEventsCatalog
      = .ok ⟨[.obj wCatalogRepo], 1,
          Catalogs.build_display_hints
            ["canonical", "url", "branch", "stack_count"] "table"
            [("canonical", "Name"), ("url", "URL"), ("branch", "Branch"),
              ("stack_count", "Stacks")]
            (some "canonical")⟩ :=
  (catalog_list_returns_envelope wConfig wJpCatalog wLpFail wHeaders
    wEventsCatalog wCatalogStdout "" "my-org" "my-key"
    [.obj wCatalogRepo] rfl rfl rfl (by decide)).1

/-- The invalid-use-case message is distinct from both elicitation
failure markers (it is strictly longer than either). -/
theorem invalid_use_case_msg_ne_markers (v : String)
    (opts : List String) :
    Stacks.invalid_use_case_msg v opts ≠ "ELICITATION_FAILED"
    ∧ Stacks.invalid_use_case_msg v opts ≠ "ELICITATION_NOT_SUPPORTED" := by
  have h1 : ("❌ Invalid use case \x27" : String).length = 20 := rfl
  have h2 : ("\x27. Available options are: " : String).length = 26 := rfl
  have hlen : (Stacks.invalid_use_case_msg v opts).length
      = 46 + (v.length + (String.intercalate ", " opts).length) := by
    simp only [Stacks.invalid_use_case_msg, String.length_append, h1, h2]
    omega
  refine ⟨fun h => ?_, fun h => ?_⟩
  · rw [h] at hlen
    have h18 : ("ELICITATION_FAILED" : String).length = 18 := rfl
    rw [h18] at hlen
    omega
  · rw [h] at hlen
    have h25 : ("ELICITATION_NOT_SUPPORTED" : String).length = 25 := rfl
    rw [h25] at hlen
    omega

/-- A successful name elicitation comes from an accepted response with
a non-empty stripped value. -/
theorem elicit_stack_name_ok (o : Stacks.ElicitOutcome) (nm : String)
    (h : Stacks.elicit_stack_name o = .ok nm) :
    ∃ r, o = .returns r ∧ r.action = "accept" ∧ r.data ≠ ""
      ∧ pyTrim r.data ≠ "" ∧ nm = pyTrim r.data := by
  cases o with
  | raisesAttr => simp [Stacks.elicit_stack_name] at h
  | raises => simp [Stacks.elicit_stack_name] at h
  | returns r =>
    refine ⟨r, rfl, ?_⟩
    by_cases h1 : r.action = "accept"
    case neg => simp [Stacks.elicit_stack_name, h1] at h
    case pos =>
    by_cases h2 : r.data = ""
    case pos => simp [Stacks.elicit_stack_name, h1, h2] at h
    case neg =>
    by_cases h3 : pyTrim r.data = ""
    case pos => simp [Stacks.elicit_stack_name, h1, h2, h3] at h
    case neg =>
    refine ⟨h1, h2, h3, ?_⟩
    simp [Stacks.elicit_stack_name, h1, h2, h3] at h
    exact h.symm

/-- A fully successful elicitation implies that all four steps were
accepted with valid values. -/
theorem elicit_ok_implies_accepted (inp : Stacks.ElicitIn)
    (ucs : List String) (p : Stacks.StackParams)
    (h : Stacks.elicit_stack_parameters inp ucs = .ok p) :
    Stacks.all_steps_accepted inp ucs := by
  unfold Stacks.elicit_stack_parameters at h
  cases hname : Stacks.elicit_stack_name inp.nameResp with
  | error m => rw [hname] at h; simp at h
  | ok nm =>
    rw [hname] at h
    obtain ⟨r1, hn1, ha1, hd1, ht1, _⟩ :=
      elicit_stack_name_ok inp.nameResp nm hname
    cases hu : inp.useCaseResp with
    | raisesAttr => rw [hu] at h; simp at h
    | raises => rw [hu] at h; simp at h
    | returns r2 =>
      rw [hu] at h
      by_cases ha2 : r2.action = "accept"
      case neg => simp [ha2] at h
      case pos =>
      by_cases hm2 : r2.data ∈ ucs
      case neg => simp [ha2, hm2] at h
      case pos =>
      cases hcf : inp.catalogFetch with
      | error e => rw [hcf] at h; simp [ha2, hm2] at h
      | ok repos =>
      rw [hcf] at h
      by_cases hca : Stacks.get_available_canonicals repos = []
      case pos => simp [ha2, hm2, hca] at h
      case neg =>
      cases hcr : inp.catalogResp with
      | raisesAttr => rw [hcr] at h; simp [ha2, hm2, hca] at h
      | raises => rw [hcr] at h; simp [ha2, hm2, hca] at h
      | returns r3 =>
      rw [hcr] at h
      by_cases ha3 : r3.action = "accept"
      case neg => simp [ha2, hm2, hca, ha3] at h
      case pos =>
      by_cases hm3 : r3.data ∈ Stacks.get_available_canonicals repos
      case neg => simp [ha2, hm2, hca, ha3, hm3] at h
      case pos =>
      cases hco : inp.confirmResp with
      | raisesAttr => rw [hco] at h; simp [ha2, hm2, hca, ha3, hm3] at h
      | raises => rw [hco] at h; simp [ha2, hm2, hca, ha3, hm3] at h
      | returns r4 =>
      rw [hco] at h
      by_cases ha4 : r4.action = "accept"
      case neg => simp [ha2, hm2, hca, ha3, hm3, ha4] at h
      case pos =>
      by_cases hl4 : pyLowerStr r4.data = "confirm"
      case neg => simp [ha2, hm2, hca, ha3, hm3, ha4, hl4] at h
      case pos =>
      exact ⟨⟨r1, hn1, ha1, hd1, ht1⟩,
        ⟨r2, hu, ha2, hm2⟩,
        ⟨repos, r3, hcf, hcr, ha3, hm3⟩,
        ⟨r4, hco, ha4, hl4⟩⟩

/-- C7: an elicited use-case value outside the offered list makes the
flow return the non-exceptional cancellation message naming the value
and listing the options, with no `stack create` invocation; and the
creation subcommand runs only when the name, use-case, catalog-source
and confirmation steps were all accepted. -/
theorem invalid_use_case_cancels_without_creation
    (inp : Stacks.ElicitIn) (ref : String) (ucs : List String)
    (nm : String) (r : Stacks.ElicitResult)
    (hname : Stacks.elicit_stack_name inp.nameResp = .ok nm)
    (huc : inp.useCaseResp = .returns r)
    (hacc : r.action = "accept")
    (hnotin : r.data ∉ ucs) :
    Stacks.handle_elicitation_flow inp ref ucs
      = (Stacks.invalid_use_case_msg r.data ucs, [])
    ∧ (∀ (inp2 : Stacks.ElicitIn) (ref2 : String) (ucs2 : List String),
        (Stacks.handle_elicitation_flow inp2 ref2 ucs2).2 ≠ [] →
        Stacks.all_steps_accepted inp2 ucs2) := by
  constructor
  · have hparams : Stacks.elicit_stack_parameters inp ucs
        = .error (Stacks.invalid_use_case_msg r.data ucs) := by
      unfold Stacks.elicit_stack_parameters
      rw [hname, huc]
      simp [hacc, hnotin]
    have hne := invalid_use_case_msg_ne_markers r.data ucs
    unfold Stacks.handle_elicitation_flow
    rw [hparams]
    simp [hne.1, hne.2]
  · intro inp2 ref2 ucs2 hnonempty
    cases hp : Stacks.elicit_stack_parameters inp2 ucs2 with
    | error m =>
      exfalso
      apply hnonempty
      unfold Stacks.handle_elicitation_flow
      rw [hp]
      by_cases hm : m = "ELICITATION_FAILED"
          ∨ m = "ELICITATION_NOT_SUPPORTED"
      · simp [hm]
      · simp [hm]
    | ok p => exact elicit_ok_implies_accepted inp2 ucs2 p hp

/-- Witness for C7 at a concrete rejected use case. -/
theorem invalid_use_case_cancels_without_creation_witness :
    Stacks.handle_elicitation_flow wElicitBadUseCase "cycloid-io:sample"
        ["dev", "prod"]
      = (Stacks.invalid_use_case_msg "bogus" ["dev", "prod"], []) :=
  (invalid_use_case_cancels_without_creation wElicitBadUseCase
    "cycloid-io:sample" ["dev", "prod"] "my stack" ⟨"accept", "bogus"⟩
    rfl rfl rfl (by decide)).1

/-- `Char.ofNat` of a valid code point has that code point. -/
theorem toNat_ofNat_valid (n : Nat) (h : n.isValidChar) :
    (Char.ofNat n).toNat = n := by
  unfold Char.ofNat
  rw [dif_pos h]
  rfl

/-- `Char.toLower` never yields an ASCII uppercase letter. -/
theorem toLower_not_upper (c : Char) :
    ¬(65 ≤ (Char.toLower c).toNat ∧ (Char.toLower c).toNat ≤ 90) := by
  simp only [Char.toLower]
  split
  · rename_i h
    have hv : Nat.isValidChar (c.toNat + 32) := by
      unfold Nat.isValidChar
      omega
    rw [toNat_ofNat_valid _ hv]
    omega
  · rename_i h
    omega

/-- Substituting after lowercasing always yields a slug character. -/
theorem substChar_toLower_slug (c : Char) :
    Stacks.slug_char (Stacks.substChar (Char.toLower c)) = true := by
  have hnu := toLower_not_upper c
  simp only [Stacks.substChar]
  split
  · rename_i hkeep
    simp only [Stacks.regexKeep, Bool.or_eq_true, Bool.and_eq_true,
      decide_eq_true_eq, beq_iff_eq] at hkeep
    simp only [Stacks.slug_char, Bool.or_eq_true, Bool.and_eq_true,
      decide_eq_true_eq, beq_iff_eq]
    omega
  · rfl

/-- Every character of `dropTrailingDashes l` occurs in `l`. -/
theorem mem_dropTrailingDashes (l : List Char) (c : Char)
    (h : c ∈ Stacks.dropTrailingDashes l) : c ∈ l := by
  induction l with
  | nil => simp [Stacks.dropTrailingDashes] at h
  | cons a rest ih =>
    simp only [Stacks.dropTrailingDashes] at h
    cases hr : Stacks.dropTrailingDashes rest with
    | nil =>
      rw [hr] at h
      by_cases ha : a = '-'
      · simp [ha] at h
      · simp [ha] at h
        simp [h]
    | cons x xs =>
      rw [hr] at h
      rcases List.mem_cons.mp h with hc | hc
      · simp [hc]
      · exact List.mem_cons_of_mem a (ih (hr ▸ hc))

/-- Every character of `collapseAux b l` occurs in `l`. -/
theorem mem_collapseAux (l : List Char) (b : Bool) (c : Char)
    (h : c ∈ Stacks.collapseAux b l) : c ∈ l := by
  induction l generalizing b with
  | nil => simp [Stacks.collapseAux] at h
  | cons a rest ih =>
    simp only [Stacks.collapseAux] at h
    by_cases ha : a = '-'
    · rw [if_pos ha] at h
      cases b with
      | true =>
        simp only [if_pos trivial] at h
        exact List.mem_cons_of_mem a (ih true h)
      | false =>
        simp only [Bool.false_eq_true, if_neg] at h
        rcases List.mem_cons.mp h with hc | hc
        · simp [hc, ha]
        · exact List.mem_cons_of_mem a (ih true hc)
    · rw [if_neg ha] at h
      rcases List.mem_cons.mp h with hc | hc
      · simp [hc]
      · exact List.mem_cons_of_mem a (ih false hc)

/-- The head surviving `dropWhile` fails the predicate. -/
theorem head_dropWhile_false (p : Char → Bool) (l : List Char)
    (c : Char) (h : (l.dropWhile p).head? = some c) : p c = false := by
  induction l with
  | nil => simp [List.dropWhile] at h
  | cons a as ih =>
    rw [List.dropWhile_cons] at h
    by_cases hp : p a
    · simp [hp] at h
      exact ih h
    · simp [hp] at h
      subst h
      simpa using hp

/-- `dropTrailingDashes` leaves the head unchanged when non-empty. -/
theorem head_dropTrailingDashes (l : List Char) :
    (Stacks.dropTrailingDashes l).head? = none
    ∨ (Stacks.dropTrailingDashes l).head? = l.head? := by
  cases l with
  | nil => exact Or.inl rfl
  | cons a rest =>
    simp only [Stacks.dropTrailingDashes]
    cases hr : Stacks.dropTrailingDashes rest with
    | nil =>
      by_cases ha : a = '-'
      · simp [ha]
      · simp [ha]
    | cons x xs => simp

/-- `dropTrailingDashes` never ends with a dash. -/
theorem getLast_dropTrailingDashes (l : List Char) :
    (Stacks.dropTrailingDashes l).getLast? ≠ some '-' := by
  induction l with
  | nil => simp [Stacks.dropTrailingDashes]
  | cons a rest ih =>
    simp only [Stacks.dropTrailingDashes]
    cases hr : Stacks.dropTrailingDashes rest with
    | nil =>
      by_cases ha : a = '-'
      · simp [ha]
      · simp [ha]
    | cons x xs =>
      rw [List.getLast?_cons_cons]
      rw [← hr]
      exact ih

/-- A collapse that produced nothing consumed only dashes. -/
theorem collapseAux_eq_nil (l : List Char) (b : Bool)
    (h : Stacks.collapseAux b l = []) : ∀ c ∈ l, c = '-' := by
  induction l generalizing b with
  | nil => simp
  | cons a rest ih =>
    simp only [Stacks.collapseAux] at h
    by_cases ha : a = '-'
    · rw [if_pos ha] at h
      cases b with
      | true =>
        simp only [if_pos trivial] at h
        intro c hc
        rcases List.mem_cons.mp hc with hc | hc
        · simp [hc, ha]
        · exact ih true h c hc
      | false => simp at h
    · rw [if_neg ha] at h
      simp at h

/-- A non-empty list of dashes ends with a dash. -/
theorem all_dash_getLast (l : List Char) (hne : l ≠ [])
    (hall : ∀ c ∈ l, c = '-') : l.getLast? = some '-' := by
  induction l with
  | nil => exact absurd rfl hne
  | cons a rest ih =>
    cases rest with
    | nil => simpa using hall a (by simp)
    | cons x xs =>
      rw [List.getLast?_cons_cons]
      exact ih (by simp) (fun c hc => hall c (List.mem_cons_of_mem a hc))

/-- If the collapsed list ends with a dash, so did the input. -/
theorem getLast_collapseAux (l : List Char) (b : Bool)
    (h : (Stacks.collapseAux b l).getLast? = some '-') :
    l.getLast? = some '-' := by
  induction l generalizing b with
  | nil => simp [Stacks.collapseAux] at h
  | cons a rest ih =>
    simp only [Stacks.collapseAux] at h
    by_cases ha : a = '-'
    · rw [if_pos ha] at h
      cases b with
      | true =>
        simp only [if_pos trivial] at h
        have hrest := ih true h
        cases rest with
        | nil => simp at hrest
        | cons x xs => rw [List.getLast?_cons_cons]; exact hrest
      | false =>
        rw [if_neg (by simp)] at h
        cases hk : Stacks.collapseAux true rest with
        | nil =>
          cases rest with
          | nil => simp [ha]
          | cons x xs =>
            rw [List.getLast?_cons_cons]
            exact all_dash_getLast (x :: xs) (by simp)
              (collapseAux_eq_nil (x :: xs) true hk)
        | cons y ys =>
          rw [hk, List.getLast?_cons_cons] at h
          have hrest := ih true (hk ▸ h)
          cases rest with
          | nil => simp at hrest
          | cons x xs => rw [List.getLast?_cons_cons]; exact hrest
    · rw [if_neg ha] at h
      cases hk : Stacks.collapseAux false rest with
      | nil =>
        rw [hk] at h
        simp only [List.getLast?_singleton, Option.some.injEq] at h
        exact absurd h ha
      | cons y ys =>
        rw [hk, List.getLast?_cons_cons] at h
        have hrest := ih false (hk ▸ h)
        cases rest with
        | nil => simp [Stacks.collapseAux] at hk
        | cons x xs => rw [List.getLast?_cons_cons]; exact hrest

/-- A collapse primed with a preceding dash never starts with one. -/
theorem head_collapseAux_true (l : List Char) :
    (Stacks.collapseAux true l).head? ≠ some '-' := by
  induction l with
  | nil => simp [Stacks.collapseAux]
  | cons a rest ih =>
    simp only [Stacks.collapseAux]
    by_cases ha : a = '-'
    · rw [if_pos ha]
      simpa using ih
    · rw [if_neg ha]
      simpa using ha

/-- Prepending a character keeps `no_double_dash` when the junction is
not a double dash. -/
theorem no_double_dash_cons (a : Char) (l : List Char)
    (h1 : Stacks.no_double_dash l = true)
    (h2 : a ≠ '-' ∨ l.head? ≠ some '-') :
    Stacks.no_double_dash (a :: l) = true := by
  cases l with
  | nil => rfl
  | cons x xs =>
    simp only [Stacks.no_double_dash, Bool.and_eq_true,
      Bool.not_eq_true']
    refine ⟨?_, h1⟩
    rcases h2 with h2 | h2
    · simp [h2]
    · have hx : x ≠ '-' := by simpa using h2
      simp [hx]

/-- A collapsed list never holds two consecutive dashes. -/
theorem no_double_dash_collapseAux (l : List Char) (b : Bool) :
    Stacks.no_double_dash (Stacks.collapseAux b l) = true := by
  induction l generalizing b with
  | nil => rfl
  | cons a rest ih =>
    simp only [Stacks.collapseAux]
    by_cases ha : a = '-'
    · rw [if_pos ha]
      cases b with
      | true => simpa using ih true
      | false =>
        simp only [Bool.false_eq_true, if_neg]
        exact no_double_dash_cons _ _ (ih true)
          (Or.inr (head_collapseAux_true rest))
    · rw [if_neg ha]
      exact no_double_dash_cons _ _ (ih false) (Or.inl ha)

/-- C10 (amended): every generated slug holds only lowercase letters,
digits and dashes, never starts or ends with a dash and never holds two
consecutive dashes; and whenever the slug is non-empty it is the argv
entry immediately following `--stack` in the stack-creation command.
(A name whose slug is empty has the slug dropped from the argv by the
falsy filter — see the counterexample.) -/
theorem generate_canonical_slug_properties (name : String) :
    (∀ c ∈ (Stacks.generate_canonical_from_name name).data,
      Stacks.slug_char c = true)
    ∧ (Stacks.generate_canonical_from_name name).data.head? ≠ some '-'
    ∧ (Stacks.generate_canonical_from_name name).data.getLast?
        ≠ some '-'
    ∧ Stacks.no_double_dash
        (Stacks.generate_canonical_from_name name).data = true
    ∧ (Stacks.generate_canonical_from_name name ≠ "" →
        ∀ ref use_case src, ∃ pre post,
          Stacks.creation_args ref name use_case src
            = pre ++ ["--stack", Stacks.generate_canonical_from_name name]
              ++ post) := by
  refine ⟨?_, ?_, ?_, ?_, ?_⟩
  · intro c hc
    have hc2 := mem_collapseAux _ false c hc
    have hc3 := mem_dropTrailingDashes _ c hc2
    have hc4 := (List.dropWhile_sublist _).subset hc3
    obtain ⟨d, hd, rfl⟩ := List.mem_map.mp hc4
    obtain ⟨e, _, rfl⟩ := List.mem_map.mp hd
    exact substChar_toLower_slug e
  · have hstr := head_dropTrailingDashes
      (((pyLowerStr name).data.map Stacks.substChar).dropWhile
        (fun c => c = '-'))
    rcases hstr with hstr | hstr
    · rw [List.head?_eq_none_iff] at hstr
      show (Stacks.collapseDashes _).head? ≠ some '-'
      rw [hstr]
      simp [Stacks.collapseDashes, Stacks.collapseAux]
    · show (Stacks.collapseDashes _).head? ≠ some '-'
      cases hh : Stacks.dropTrailingDashes
          (((pyLowerStr name).data.map Stacks.substChar).dropWhile
            (fun c => c = '-')) with
      | nil => simp [Stacks.collapseDashes, Stacks.collapseAux]
      | cons a rest =>
        have hane : a ≠ '-' := by
          rw [hh] at hstr
          have := head_dropWhile_false (fun c => c = '-') _ a hstr.symm
          simpa using this
        simp [Stacks.collapseDashes, Stacks.collapseAux, hane]
  · intro h
    exact getLast_dropTrailingDashes _ (getLast_collapseAux _ false h)
  · exact no_double_dash_collapseAux _ false
  · intro hslug ref use_case src
    refine ⟨(["create", "--blueprint-ref", ref, "--name", name]).filter
        (fun arg => arg ≠ ""),
      (["--use-case", use_case, "--catalog-repository", src]).filter
        (fun arg => arg ≠ ""), ?_⟩
    show (["create", "--blueprint-ref", ref, "--name", name]
        ++ ["--stack", Stacks.generate_canonical_from_name name]
        ++ ["--use-case", use_case, "--catalog-repository", src]).filter
        (fun arg => arg ≠ "") = _
    rw [List.filter_append, List.filter_append]
    simp [hslug]

/-- Witness for C10 at a concrete name. -/
theorem generate_canonical_slug_properties_witness :
    Stacks.generate_canonical_from_name "My Stack!" = "my-stack"
    ∧ ∃ pre post,
        Stacks.creation_args "ref-1" "My Stack!" "dev" "cat"
          = pre ++ ["--stack",
              Stacks.generate_canonical_from_name "My Stack!"] ++ post :=
  ⟨rfl,
    (generate_canonical_slug_properties "My Stack!").2.2.2.2
      (by decide) "ref-1" "dev" "cat"⟩

/-- Counterexample for C10 as stated: a name with no alphanumeric
characters slugs to the empty string, which the falsy filter drops from
the argv, so `--stack` is followed by `--use-case` rather than by the
slug. -/
theorem empty_slug_omitted_from_creation_args :
    Stacks.generate_canonical_from_name "!!!" = ""
    ∧ Stacks.creation_args "cycloid-io:sample" "!!!" "dev" "my-catalog"
      = ["create", "--blueprint-ref", "cycloid-io:sample", "--name",
          "!!!", "--stack", "--use-case", "dev", "--catalog-repository",
          "my-catalog"] := by
  constructor
  · rfl
  · rfl

end CycloidMCP
